import Mathlib

/-!
Shallow embedding of the locally-authored training-loop logic of the
`tutorial_optuna.ipynb` notebook (classes `Net` and `SNNTrainer`).

Conventions of the embedding:
* Python floats that the notebook's control flow compares and accumulates are
  modelled as rationals (`ℚ`); Python's `float("inf")` seed of `best_loss` is
  modelled as the `none` case of `Option ℚ`.
* Python `int` values that may be negative (`patience`, `num_hidden_layers`
  as a constructor argument) are modelled as `ℤ`; loop indices and counters
  that start at 0 and only increment are `ℕ`.
* Fallible Python operations (assertions, division by zero) are modelled with
  `Except PyError`.
* External capabilities (the tensor framework's forward pass, the loss and
  accuracy functions, the data loader) are modelled as inputs: each batch
  carries the externally computed spike total, loss and accuracy values that
  the notebook would obtain from those libraries.
-/

/-- Kinds of runtime errors the notebook's own code can raise. -/
inductive PyError where
  | assertionError
  | zeroDivisionError
deriving DecidableEq, Repr

/-- State of a `Net` instance: the constructor arguments it stores plus the
spike-counting fields set by `reset_spikes`.  The layer objects themselves are
external library state and carry no logic of this repository. -/
structure NetState where
  num_steps : ℕ
  num_hidden_neurons : ℕ
  num_hidden_layers : ℤ
  params : List ℚ
  total_spike_count : ℚ
  forward_count : ℕ
deriving DecidableEq, Repr

/-- `Net.reset_spikes`: zero both spike-counting fields. -/
def reset_spikes (n : NetState) : NetState :=
  { n with total_spike_count := 0, forward_count := 0 }

/-- `Net.__init__`: asserts `0 <= beta1 <= 1` and `num_hidden_layers >= 0`
(an `AssertionError` otherwise), builds the layers — their randomly
initialized weights are external state, abstracted as the flat vector
`params0` — stores the sizes, and calls `reset_spikes`. -/
def Net_init (num_steps num_hidden_neurons : ℕ) (num_hidden_layers : ℤ)
    (beta1 : ℚ) (params0 : List ℚ) : Except PyError NetState :=
  if ¬ (0 ≤ beta1 ∧ beta1 ≤ 1) then .error .assertionError
  else if ¬ (0 ≤ num_hidden_layers) then .error .assertionError
  else .ok (reset_spikes
    { num_steps := num_steps, num_hidden_neurons := num_hidden_neurons,
      num_hidden_layers := num_hidden_layers, params := params0,
      total_spike_count := 0, forward_count := 0 })

/-- `Net.forward`: the per-step, per-layer spike sums are produced by the
external neuron library; `batch_spikes` is their total for this call.  The
method adds them to `total_spike_count` and increments `forward_count`; it
never writes the layer parameters. -/
def forward (n : NetState) (batch_spikes : ℚ) : NetState :=
  { n with total_spike_count := n.total_spike_count + batch_spikes,
           forward_count := n.forward_count + 1 }

/-- `self.optimizer.step()` of the per-batch training step: the external
optimizer overwrites the layer parameters; the new vector `p` is externally
computed. -/
def optimizer_step (n : NetState) (p : List ℚ) : NetState :=
  { n with params := p }

/-- `Net.get_spikes_per_digit`: `total_spike_count / forward_count`, a
`ZeroDivisionError` when `forward_count` is 0. -/
def get_spikes_per_digit (n : NetState) : Except PyError ℚ :=
  if n.forward_count = 0 then .error .zeroDivisionError
  else .ok (n.total_spike_count / (n.forward_count : ℚ))

/-- The early-stop bookkeeping local to `SNNTrainer.train`:
`best_loss` (seeded at `float("inf")`, the `none` case) and `loss_counter`. -/
structure TrackerState where
  best_loss : Option ℚ
  loss_counter : ℕ
deriving DecidableEq, Repr

/-- The initial tracker state of a `train` call:
`best_loss = float("inf")`, `loss_counter = 0`. -/
def initTracker : TrackerState := { best_loss := none, loss_counter := 0 }

/-- The comparison `current_loss < (1 - sig_improvement) * best_loss` of
`SNNTrainer.train`, with IEEE semantics for the infinite seed: against
`best_loss = inf` the right-hand side is `inf` when `1 - t > 0` (so any
finite loss compares smaller), `nan` when `1 - t = 0` and `-inf` when
`1 - t < 0` (both make the comparison false). -/
def lossImproves (t : ℚ) (c : ℚ) : Option ℚ → Bool
  | none => decide (t < 1)
  | some b => decide (c < (1 - t) * b)

/-- The per-batch early-stop update of `SNNTrainer.train`: on improvement set
`best_loss := current_loss` and `loss_counter := 0`, otherwise increment
`loss_counter`. -/
def record (t : ℚ) (s : TrackerState) (c : ℚ) : TrackerState :=
  if lossImproves t c s.best_loss then { best_loss := some c, loss_counter := 0 }
  else { s with loss_counter := s.loss_counter + 1 }

/-- Feed a list of losses to the tracker from the initial state. -/
def runTracker (t : ℚ) (losses : List ℚ) : TrackerState :=
  losses.foldl (record t) initTracker

/-- The early-stop test of `SNNTrainer.train`:
`epoch > 0 and loss_counter > self.patience`. -/
def should_stop (patience : ℤ) (epoch : ℕ) (loss_counter : ℕ) : Bool :=
  decide (0 < epoch) && decide (patience < (loss_counter : ℤ))

/-- State of an `SNNTrainer` instance: the owned `Net`, the stored
configuration, and the bookkeeping fields (`loss_hist`, `acc_hist`,
`epochs`, `batches`). -/
structure SNNTrainerState where
  net : NetState
  num_epochs : ℕ
  num_steps : ℕ
  learning_rate : ℚ
  patience : ℤ
  sig_improvement : ℚ
  loss_hist : List ℚ
  acc_hist : List ℚ
  epochs : ℕ
  batches : ℕ
deriving DecidableEq, Repr

/-- `SNNTrainer.__init__`: stores the arguments and derives
`sig_improvement = sig_improvement / net.num_hidden_layers ** 3`, a
`ZeroDivisionError` when the cube is 0 (that is, when the net was built
with 0 hidden layers).  No other argument is validated. -/
def SNNTrainer_init (net : NetState) (num_epochs num_steps : ℕ)
    (learning_rate : ℚ) (patience : ℤ) (sig_improvement : ℚ) :
    Except PyError SNNTrainerState :=
  if net.num_hidden_layers ^ 3 = 0 then .error .zeroDivisionError
  else .ok
    { net := net, num_epochs := num_epochs, num_steps := num_steps,
      learning_rate := learning_rate, patience := patience,
      sig_improvement := sig_improvement / ((net.num_hidden_layers ^ 3 : ℤ) : ℚ),
      loss_hist := [], acc_hist := [], epochs := 0, batches := 0 }

/-- Build the `Net` and then the `SNNTrainer` for it, as `optuna_objective`
does; the first error raised wins. -/
def mkTrainer (num_steps num_hidden_neurons : ℕ) (num_hidden_layers : ℤ)
    (beta1 : ℚ) (params0 : List ℚ) (num_epochs : ℕ) (learning_rate : ℚ)
    (patience : ℤ) (sig_improvement : ℚ) : Except PyError SNNTrainerState :=
  (Net_init num_steps num_hidden_neurons num_hidden_layers beta1 params0).bind
    fun net => SNNTrainer_init net num_epochs num_steps learning_rate
      patience sig_improvement

/-- Externally computed values for one training batch: the spike total of the
forward pass, the scalar loss, the accuracy `SF.accuracy_rate` would report,
and the parameter vector the optimizer step leaves behind. -/
structure Batch where
  spikes : ℚ
  loss : ℚ
  acc : ℚ
  new_params : List ℚ
deriving DecidableEq, Repr

/-- One entry of the training trace: the epoch index of a processed batch and
the tracker state right after that batch (on which the early-stop test is
evaluated). -/
structure TraceEntry where
  epoch : ℕ
  tracker : TrackerState
deriving DecidableEq, Repr

/-- The early-stop test as evaluated on a trace entry. -/
def entryStops (patience : ℤ) (e : TraceEntry) : Bool :=
  should_stop patience e.epoch e.tracker.loss_counter

/-- The inner (per-batch) loop of `SNNTrainer.train` for one epoch, starting
at batch index `i`: forward pass, append the loss to `loss_hist`, sample the
accuracy every 100th batch (skipping batch 0), update the early-stop
bookkeeping, increment `batches`, and return early when `should_stop` fires.
Returns the tracker, the trainer state, the trace of processed batches, and
whether the early return was taken. -/
def trainEpoch (patience : ℤ) (epoch : ℕ) :
    ℕ → TrackerState → SNNTrainerState → List Batch →
    TrackerState × SNNTrainerState × List TraceEntry × Bool
  | _, tr, st, [] => (tr, st, [], false)
  | i, tr, st, b :: rest =>
    let st1 : SNNTrainerState :=
      { st with net := optimizer_step (forward st.net b.spikes) b.new_params,
                loss_hist := st.loss_hist ++ [b.loss] }
    let st2 : SNNTrainerState :=
      if i % 100 = 0 ∧ i ≠ 0 then { st1 with acc_hist := st1.acc_hist ++ [b.acc] }
      else st1
    let tr' := record st.sig_improvement tr b.loss
    let st3 : SNNTrainerState := { st2 with batches := st2.batches + 1 }
    let e : TraceEntry := { epoch := epoch, tracker := tr' }
    if should_stop patience epoch tr'.loss_counter then (tr', st3, [e], true)
    else
      let r := trainEpoch patience epoch (i + 1) tr' st3 rest
      (r.1, r.2.1, e :: r.2.2.1, r.2.2.2)

/-- The outer (per-epoch) loop of `SNNTrainer.train`: each epoch pulls its
batches from the loader (`data` lists them per epoch, one entry per epoch of
`range(num_epochs)`); after a full epoch `epochs` is incremented, and an
early return inside an epoch ends the run. -/
def trainLoop (patience : ℤ) :
    ℕ → TrackerState → SNNTrainerState → List (List Batch) →
    TrackerState × SNNTrainerState × List TraceEntry
  | _, tr, st, [] => (tr, st, [])
  | epoch, tr, st, eb :: rest =>
    let r := trainEpoch patience epoch 0 tr st eb
    if r.2.2.2 then (r.1, r.2.1, r.2.2.1)
    else
      let st2 : SNNTrainerState := { r.2.1 with epochs := r.2.1.epochs + 1 }
      let r2 := trainLoop patience (epoch + 1) r.1 st2 rest
      (r2.1, r2.2.1, r.2.2.1 ++ r2.2.2)

/-- `SNNTrainer.train`: run the per-epoch loop over the whole loader from the
initial early-stop state, starting at epoch 0. -/
def train (st : SNNTrainerState) (data : List (List Batch)) :
    SNNTrainerState × List TraceEntry :=
  let r := trainLoop st.patience 0 initTracker st data
  (r.2.1, r.2.2)

/-- Externally computed values for one evaluation batch: the spike total of
the forward pass, the accuracy `SF.accuracy_rate` reports, and the batch size
`data.size(0)`. -/
structure EvalBatch where
  spikes : ℚ
  acc : ℚ
  size : ℕ
deriving DecidableEq, Repr

/-- The accumulation loop of `SNNTrainer.get_accuracy`: per batch, a forward
pass (under `torch.no_grad()`, so no parameter update), then
`total_acc += acc * data.size(0)` and `total += data.size(0)`. -/
def get_accuracy_loop : NetState → ℚ → ℚ → List EvalBatch → NetState × ℚ × ℚ
  | n, total_acc, total, [] => (n, total_acc, total)
  | n, total_acc, total, b :: rest =>
    get_accuracy_loop (forward n b.spikes) (total_acc + b.acc * (b.size : ℚ))
      (total + (b.size : ℚ)) rest

/-- `SNNTrainer.get_accuracy`: accumulate over the loader and return
`total_acc / total` — a `ZeroDivisionError` when the loader was empty — along
with the trainer state after the call (only the owned net's spike counters
have moved). -/
def get_accuracy (st : SNNTrainerState) (test : List EvalBatch) :
    Except PyError ℚ × SNNTrainerState :=
  let r := get_accuracy_loop st.net 0 0 test
  (if r.2.2 = 0 then .error .zeroDivisionError else .ok (r.2.1 / r.2.2),
   { st with net := r.1 })

/-- Specification-side order on `best_loss` values, with `none` as `+inf`:
`bestLE a b` says `a` is at most `b`. -/
def bestLE : Option ℚ → Option ℚ → Prop
  | _, none => True
  | none, some _ => False
  | some a, some b => a ≤ b

/-- `best_loss` is `+inf` or a nonnegative value. -/
def bestNN (s : TrackerState) : Prop :=
  ∀ b : ℚ, s.best_loss = some b → 0 ≤ b

/-- One step of running-minimum tracking over `Option ℚ` (`none` = nothing
seen yet). -/
def minStep : Option ℚ → ℚ → Option ℚ
  | none, x => some x
  | some m, x => some (min m x)

/-- The minimum loss seen so far (`none` for the empty history). -/
def minSoFar (l : List ℚ) : Option ℚ :=
  l.foldl minStep none

/-- A concrete `Net` as built by `Net_init 25 299 1 (9/10) [1, 2]`. -/
def sampleNet : NetState :=
  { num_steps := 25, num_hidden_neurons := 299, num_hidden_layers := 1,
    params := [1, 2], total_spike_count := 0, forward_count := 0 }

/-- The concrete trainer `SNNTrainer_init` builds from `sampleNet` with
`patience = 1` and `sig_improvement = 5/100` (so the stored threshold is
`(5/100) / 1³ = 5/100`). -/
def sampleTrainer : SNNTrainerState :=
  { net := sampleNet, num_epochs := 30, num_steps := 25,
    learning_rate := 2/1000, patience := 1, sig_improvement := 5/100,
    loss_hist := [], acc_hist := [], epochs := 0, batches := 0 }

/-- C1: the early-stopping decision is true iff the epoch index is positive
and the stall counter strictly exceeds `patience`; at any epoch > 0 a
counter equal to `patience` yields false and `patience + 1` yields true,
and during epoch 0 it is false for every counter value. -/
theorem should_stop_spec :
    (∀ (p : ℤ) (e c : ℕ), should_stop p e c = true ↔ 0 < e ∧ p < (c : ℤ))
    ∧ (∀ (c e : ℕ), 0 < e →
        should_stop (c : ℤ) e c = false ∧ should_stop (c : ℤ) e (c + 1) = true)
    ∧ (∀ (p : ℤ) (c : ℕ), should_stop p 0 c = false) := by
  refine ⟨fun p e c => ?_, fun c e he => ⟨?_, ?_⟩, fun p c => ?_⟩
  · simp [should_stop]
  · simp [should_stop]
  · simp [should_stop, he]
  · simp [should_stop]

/-- Witness for C1 at `patience = 2`, `epoch = 1`. -/
theorem should_stop_spec_witness :
    should_stop ((2 : ℕ) : ℤ) 1 2 = false ∧ should_stop ((2 : ℕ) : ℤ) 1 3 = true :=
  ⟨(should_stop_spec.2.1 2 1 (by decide)).1, (should_stop_spec.2.1 2 1 (by decide)).2⟩

/-- C2: each recorded loss is compared against
`(1 - threshold) * best_loss`; strictly smaller sets `best_loss` to the loss
and resets the stall counter to 0, otherwise `best_loss` is unchanged and
the counter increments by exactly 1. -/
theorem record_spec :
    ∀ (t c : ℚ) (s : TrackerState),
      (lossImproves t c s.best_loss = true →
        record t s c = { best_loss := some c, loss_counter := 0 })
      ∧ (lossImproves t c s.best_loss = false →
        record t s c
          = { best_loss := s.best_loss, loss_counter := s.loss_counter + 1 })
      ∧ (∀ b : ℚ, s.best_loss = some b →
          (lossImproves t c s.best_loss = true ↔ c < (1 - t) * b)) := by
  intro t c s
  refine ⟨fun h => ?_, fun h => ?_, fun b hb => ?_⟩
  · simp [record, h]
  · simp [record, h]
  · simp [lossImproves, hb]

/-- Witness for C2: loss 1 against best 2 at threshold 0 improves. -/
theorem record_spec_witness :
    record 0 { best_loss := some 2, loss_counter := 5 } 1
      = { best_loss := some 1, loss_counter := 0 } :=
  (record_spec 0 1 { best_loss := some 2, loss_counter := 5 }).1
    (by norm_num [lossImproves])

/-- C10: `get_spikes_per_digit` divides the cumulative spike count by the
forward-pass count; right after construction or after `reset_spikes` that
count is 0 and the call fails with a division-by-zero error, and each
`forward` call increments the count by exactly 1. -/
theorem get_spikes_per_digit_spec :
    (∀ n : NetState, (reset_spikes n).forward_count = 0)
    ∧ (∀ n : NetState, n.forward_count = 0 →
        get_spikes_per_digit n = .error .zeroDivisionError)
    ∧ (∀ n : NetState, n.forward_count ≠ 0 →
        get_spikes_per_digit n = .ok (n.total_spike_count / (n.forward_count : ℚ)))
    ∧ (∀ (n : NetState) (s : ℚ), (forward n s).forward_count = n.forward_count + 1)
    ∧ (∀ (a b : ℕ) (h : ℤ) (β : ℚ) (p : List ℚ) (n : NetState),
        Net_init a b h β p = .ok n → n.forward_count = 0) := by
  refine ⟨fun n => rfl, fun n h => by simp [get_spikes_per_digit, h],
    fun n h => by simp [get_spikes_per_digit, h], fun n s => rfl,
    fun a b h β p n hn => ?_⟩
  unfold Net_init at hn
  split at hn
  · exact absurd hn (by simp)
  · split at hn
    · exact absurd hn (by simp)
    · rw [Except.ok.injEq] at hn
      subst hn
      rfl

/-- Witness for C10: a reset net divides by zero. -/
theorem get_spikes_per_digit_spec_witness :
    get_spikes_per_digit (reset_spikes (forward sampleNet 7))
      = .error .zeroDivisionError :=
  get_spikes_per_digit_spec.2.1 (reset_spikes (forward sampleNet 7)) rfl

/-- C3 counterexample: constructing with valid `hidden_layers = 1` but
`patience = -1` and negative `base_significance` succeeds — no error of any
kind is raised at construction for those arguments, so no
`ConfigurationError` guards `patience < 0` or non-positive
`base_significance`. -/
theorem mkTrainer_accepts_bad_config :
    (mkTrainer 25 299 1 (9/10) [1, 2] 30 (2/1000) (-1) (-5/100)).isOk = true := by
  norm_num [mkTrainer, Net_init, SNNTrainer_init, reset_spikes, Except.bind,
    Except.isOk, Except.toBool]

/-- C3 amended: construction validates only the hidden-layer count. With
`hidden_layers = 0` the `Net` is accepted but the trainer's threshold
derivation divides by `0 ** 3` and fails with a `ZeroDivisionError` — no
`ConfigurationError` type exists in the code — before any batch runs;
negative `hidden_layers` fails `Net`'s assertion; `patience < 0` and
non-positive `base_significance` are accepted without error. -/
theorem mkTrainer_spec (ns nh : ℕ) (h : ℤ) (β : ℚ) (p0 : List ℚ)
    (ne' : ℕ) (lr : ℚ) (p : ℤ) (sig : ℚ) (hβ0 : 0 ≤ β) (hβ1 : β ≤ 1) :
    (h = 0 → mkTrainer ns nh h β p0 ne' lr p sig = .error .zeroDivisionError)
    ∧ (h < 0 → mkTrainer ns nh h β p0 ne' lr p sig = .error .assertionError)
    ∧ (0 < h → (mkTrainer ns nh h β p0 ne' lr p sig).isOk = true) := by
  refine ⟨fun h0 => ?_, fun hneg => ?_, fun hpos => ?_⟩
  · subst h0
    simp [mkTrainer, Net_init, SNNTrainer_init, reset_spikes, Except.bind,
      hβ0, hβ1]
  · simp [mkTrainer, Net_init, Except.bind, hβ0, hβ1, not_le, hneg]
  · have h3 : h ^ 3 ≠ 0 := pow_ne_zero 3 hpos.ne'
    simp [mkTrainer, Net_init, SNNTrainer_init, reset_spikes, Except.bind,
      Except.isOk, Except.toBool, hβ0, hβ1, hpos.le, h3]

/-- Witness for C3's amended statement at `hidden_layers = 0`. -/
theorem mkTrainer_spec_witness :
    mkTrainer 25 299 0 (9/10) [1, 2] 30 (2/1000) 300 (5/100)
      = .error .zeroDivisionError :=
  (mkTrainer_spec 25 299 0 (9/10) [1, 2] 30 (2/1000) 300 (5/100)
    (by norm_num) (by norm_num)).1 rfl

/-- C4 counterexample: with threshold `5/100` and `patience = 2`, feeding
the constant loss 1 for `patience + 1 = 3` calls from the initial state
leaves the stall counter at 2, not at `patience + 1`: the first call
improves on the infinite seed and resets the counter. -/
theorem runTracker_const_cex :
    ¬ (runTracker (5/100) (List.replicate (2 + 1) (1 : ℚ))).loss_counter
      = 2 + 1 := by
  norm_num [runTracker, record, lossImproves, initTracker, List.replicate]

/-- C4 amended: from the initial state a constant loss sequence improves on
the first call (best seeded at `+inf`), resetting the counter to 0 and
setting `best_loss` to the constant; every later call increments the counter
by exactly 1, so the counter reaches `patience + 1` only after
`patience + 2` calls. -/
theorem runTracker_const_spec (t c : ℚ) (ht0 : 0 ≤ t) (ht1 : t < 1)
    (hc : 0 ≤ c) :
    (∀ k : ℕ, runTracker t (List.replicate (k + 1) c)
      = { best_loss := some c, loss_counter := k })
    ∧ ∀ p : ℕ,
      (runTracker t (List.replicate (p + 1 + 1) c)).loss_counter = p + 1 := by
  have key : ∀ k : ℕ, runTracker t (List.replicate (k + 1) c)
      = { best_loss := some c, loss_counter := k } := by
    intro k
    induction k with
    | zero =>
      simp [runTracker, initTracker, record, lossImproves, ht1]
    | succ k ih =>
      have hns : ¬ c < (1 - t) * c := by nlinarith
      rw [List.replicate_succ' (k + 1)]
      unfold runTracker at ih ⊢
      rw [List.foldl_append, ih]
      simp [record, lossImproves, hns]
  exact ⟨key, fun p => by rw [key (p + 1)]⟩

/-- Witness for C4's amended statement: threshold `5/100`, constant loss 1,
three calls leave the counter at 2. -/
theorem runTracker_const_spec_witness :
    (runTracker (5/100) (List.replicate (1 + 1 + 1) (1 : ℚ))).loss_counter
      = 1 + 1 :=
  (runTracker_const_spec (5/100) 1 (by norm_num) (by norm_num)
    (by norm_num)).2 1

/-- `bestLE` is reflexive. -/
lemma bestLE_refl : ∀ o : Option ℚ, bestLE o o
  | none => trivial
  | some a => le_refl a

/-- The initial tracker state has a nonnegative-or-infinite best loss. -/
lemma initTracker_bestNN : bestNN initTracker :=
  fun _ hb => Option.noConfusion hb

/-- One `record` step on a nonnegative loss keeps the best loss
nonnegative-or-infinite and never increases it. -/
lemma record_best_step (t c : ℚ) (s : TrackerState) (ht : 0 ≤ t) (hc : 0 ≤ c)
    (hs : bestNN s) :
    bestNN (record t s c) ∧ bestLE (record t s c).best_loss s.best_loss := by
  unfold record
  split
  case isTrue h =>
    refine ⟨fun b hb => ?_, ?_⟩
    · exact (Option.some.inj hb) ▸ hc
    · show bestLE (some c) s.best_loss
      cases hs' : s.best_loss with
      | none => trivial
      | some b =>
        rw [hs'] at h
        have hcb : c < (1 - t) * b := by simpa [lossImproves] using h
        have hb0 : 0 ≤ b := hs b hs'
        have hle : (1 - t) * b ≤ b := by nlinarith
        exact le_of_lt (lt_of_lt_of_le hcb hle)
  case isFalse h =>
    exact ⟨fun b hb => hs b hb, bestLE_refl s.best_loss⟩

/-- Running the tracker over nonnegative losses keeps the best loss
nonnegative-or-infinite. -/
lemma foldl_record_bestNN (t : ℚ) (ht : 0 ≤ t) :
    ∀ (l : List ℚ) (s : TrackerState), (∀ x ∈ l, 0 ≤ x) → bestNN s →
      bestNN (l.foldl (record t) s) := by
  intro l
  induction l with
  | nil => intro s _ hs; exact hs
  | cons c rest ih =>
    intro s hl hs
    simp only [List.foldl_cons]
    exact ih _ (fun x hx => hl x (List.mem_cons_of_mem _ hx))
      (record_best_step t c s ht (hl c (List.mem_cons_self _ _)) hs).1

/-- With threshold 0 a tracker step on `best_loss` is exactly the
running-minimum step. -/
lemma record_zero_best (s : TrackerState) (c : ℚ) :
    (record 0 s c).best_loss = minStep s.best_loss c := by
  cases hb : s.best_loss with
  | none => simp [record, lossImproves, hb, minStep]
  | some b =>
    by_cases hcb : c < b
    · simp [record, lossImproves, hb, minStep, hcb, min_eq_right hcb.le]
    · simp [record, lossImproves, hb, minStep, hcb, min_eq_left (not_lt.mp hcb)]

/-- With threshold 0 the tracker computes the running minimum. -/
lemma foldl_record_zero_min :
    ∀ (l : List ℚ) (s : TrackerState),
      (l.foldl (record 0) s).best_loss = l.foldl minStep s.best_loss := by
  intro l
  induction l with
  | nil => intro s; rfl
  | cons c rest ih =>
    intro s
    simp only [List.foldl_cons]
    rw [ih, record_zero_best]

/-- C5: over any run on nonnegative losses `best_loss` is monotonically
non-increasing (with the infinite seed as top element), and with threshold 0
it equals the minimum loss seen so far after every call. -/
theorem runTracker_best_spec (t : ℚ) (losses : List ℚ) (ht : 0 ≤ t)
    (hnn : ∀ x ∈ losses, 0 ≤ x) :
    (∀ n : ℕ, bestLE (runTracker t (losses.take (n + 1))).best_loss
        (runTracker t (losses.take n)).best_loss)
    ∧ (t = 0 → ∀ n : ℕ,
        (runTracker t (losses.take n)).best_loss = minSoFar (losses.take n)) := by
  constructor
  · intro n
    simp only [runTracker]
    by_cases hlen : n < losses.length
    · have htake : losses.take (n + 1) = losses.take n ++ [losses[n]] := by
        rw [List.take_succ]
        simp [List.getElem?_eq_getElem hlen]
      rw [htake, List.foldl_append]
      simp only [List.foldl_cons, List.foldl_nil]
      have hNN : bestNN ((losses.take n).foldl (record t) initTracker) :=
        foldl_record_bestNN t ht _ _
          (fun x hx => hnn x (List.take_subset n losses hx)) initTracker_bestNN
      have hx0 : 0 ≤ losses[n] := hnn _ (List.getElem_mem hlen)
      exact (record_best_step t _ _ ht hx0 hNN).2
    · have heq : losses.take (n + 1) = losses.take n := by
        rw [List.take_of_length_le (by omega), List.take_of_length_le (by omega)]
      rw [heq]
      exact bestLE_refl _
  · intro ht0 n
    subst ht0
    simp only [runTracker, minSoFar]
    exact foldl_record_zero_min (losses.take n) initTracker

/-- Witness for C5 on the run `[2, 1, 3]` with threshold 0. -/
theorem runTracker_best_spec_witness :
    bestLE (runTracker 0 (([2, 1, 3] : List ℚ).take 2)).best_loss
        (runTracker 0 (([2, 1, 3] : List ℚ).take 1)).best_loss
    ∧ (runTracker 0 (([2, 1, 3] : List ℚ).take 3)).best_loss
        = minSoFar (([2, 1, 3] : List ℚ).take 3) :=
  ⟨(runTracker_best_spec 0 [2, 1, 3] le_rfl (by norm_num)).1 1,
   (runTracker_best_spec 0 [2, 1, 3] le_rfl (by norm_num)).2 rfl 3⟩

/-- The accumulation loop of `get_accuracy` adds the weighted-accuracy sum
and the size sum to its accumulators and never writes the parameters. -/
lemma get_accuracy_loop_spec (l : List EvalBatch) :
    ∀ (n : NetState) (ta tot : ℚ),
      (get_accuracy_loop n ta tot l).2.1
          = ta + (l.map fun b => b.acc * (b.size : ℚ)).sum
      ∧ (get_accuracy_loop n ta tot l).2.2
          = tot + (l.map fun b => ((b.size : ℚ))).sum
      ∧ (get_accuracy_loop n ta tot l).1.params = n.params := by
  induction l with
  | nil =>
    intro n ta tot
    exact ⟨by simp [get_accuracy_loop], by simp [get_accuracy_loop], rfl⟩
  | cons b rest ih =>
    intro n ta tot
    simp only [get_accuracy_loop, List.map_cons, List.sum_cons]
    refine ⟨?_, ?_, ?_⟩
    · rw [(ih _ _ _).1]; ring
    · rw [(ih _ _ _).2.1]; ring
    · rw [(ih _ _ _).2.2]; rfl

/-- C6: `get_accuracy` returns the size-weighted average
`sum(batch_accuracy * batch_size) / sum(batch_size)`, a value in `[0, 1]`
when every batch accuracy is and sizes are positive. -/
theorem get_accuracy_weighted_avg (st : SNNTrainerState)
    (test : List EvalBatch) (hne : test ≠ [])
    (hsz : ∀ b ∈ test, 0 < b.size)
    (hacc : ∀ b ∈ test, 0 ≤ b.acc ∧ b.acc ≤ 1) :
    (get_accuracy st test).1
      = .ok ((test.map fun b => b.acc * (b.size : ℚ)).sum
          / (test.map fun b => ((b.size : ℚ))).sum)
    ∧ 0 ≤ (test.map fun b => b.acc * (b.size : ℚ)).sum
        / (test.map fun b => ((b.size : ℚ))).sum
    ∧ (test.map fun b => b.acc * (b.size : ℚ)).sum
        / (test.map fun b => ((b.size : ℚ))).sum ≤ 1 := by
  have hA0 : 0 ≤ (test.map fun b => b.acc * (b.size : ℚ)).sum := by
    apply List.sum_nonneg
    intro x hx
    obtain ⟨b, hb, rfl⟩ := List.mem_map.mp hx
    exact mul_nonneg (hacc b hb).1 (by positivity)
  have hS : 0 < (test.map fun b => ((b.size : ℚ))).sum := by
    apply List.sum_pos
    · intro x hx
      obtain ⟨b, hb, rfl⟩ := List.mem_map.mp hx
      exact_mod_cast hsz b hb
    · simpa using hne
  have hAS : (test.map fun b => b.acc * (b.size : ℚ)).sum
      ≤ (test.map fun b => ((b.size : ℚ))).sum := by
    apply List.sum_le_sum
    intro b hb
    have h1 := (hacc b hb).2
    have h2 : (0 : ℚ) ≤ (b.size : ℚ) := by positivity
    nlinarith
  refine ⟨?_, div_nonneg hA0 hS.le, (div_le_one hS).mpr hAS⟩
  have hloop := get_accuracy_loop_spec test st.net 0 0
  simp only [get_accuracy]
  rw [hloop.1, hloop.2.1]
  simp [hS.ne']

/-- Witness for C6: batches of sizes 3 and 1 with accuracies 1 and 0 give
overall accuracy 3/4, not 1/2. -/
theorem get_accuracy_weighted_avg_witness :
    (get_accuracy sampleTrainer [⟨0, 1, 3⟩, ⟨0, 0, 1⟩]).1 = .ok (3/4)
    ∧ ((3 : ℚ)/4) ≠ 1/2 := by
  have h := (get_accuracy_weighted_avg sampleTrainer [⟨0, 1, 3⟩, ⟨0, 0, 1⟩]
    (List.cons_ne_nil _ _) (by norm_num) (by norm_num)).1
  norm_num at h
  exact ⟨h, by norm_num⟩

/-- C8: `get_accuracy` leaves every bookkeeping field of the trainer —
the loss history, accuracy history, epoch counter and batch counter — and
the model parameters unchanged (its forward passes run with updates
disabled; only the owned net's spike counters move).  The early-stop
variables are locals of `train` and are not in its reach at all. -/
theorem get_accuracy_frame (st : SNNTrainerState) (test : List EvalBatch) :
    (get_accuracy st test).2.loss_hist = st.loss_hist
    ∧ (get_accuracy st test).2.acc_hist = st.acc_hist
    ∧ (get_accuracy st test).2.epochs = st.epochs
    ∧ (get_accuracy st test).2.batches = st.batches
    ∧ (get_accuracy st test).2.net.params = st.net.params := by
  exact ⟨rfl, rfl, rfl, rfl, (get_accuracy_loop_spec test st.net 0 0).2.2⟩

/-- C7: with one hidden layer and base significance `5/100` the stored
threshold is `(5/100) / 1³ = 5/100`; feeding `[1, 96/100, 95/100]` from the
initial state gives best 1 / stall 0 after the first loss, stall 1 after the
second and stall 2 after the third; with patience 1 at epoch 1 the stop
test is false after the second loss, true after the third, and the epoch-1
batch loop returns early after exactly 3 processed batches of a 4-batch
epoch. -/
theorem scenario_one_hidden_layer :
    mkTrainer 25 299 1 (9/10) [1, 2] 30 (2/1000) 1 (5/100) = .ok sampleTrainer
    ∧ runTracker (5/100) [1] = { best_loss := some 1, loss_counter := 0 }
    ∧ runTracker (5/100) [1, 96/100]
        = { best_loss := some 1, loss_counter := 1 }
    ∧ runTracker (5/100) [1, 96/100, 95/100]
        = { best_loss := some 1, loss_counter := 2 }
    ∧ should_stop 1 1 (runTracker (5/100) [1, 96/100]).loss_counter = false
    ∧ should_stop 1 1
        (runTracker (5/100) [1, 96/100, 95/100]).loss_counter = true
    ∧ (trainEpoch 1 1 0 initTracker sampleTrainer
        [⟨0, 1, 0, []⟩, ⟨0, 96/100, 0, []⟩, ⟨0, 95/100, 0, []⟩,
         ⟨0, 1, 0, []⟩]).2.2.1.length = 3
    ∧ (trainEpoch 1 1 0 initTracker sampleTrainer
        [⟨0, 1, 0, []⟩, ⟨0, 96/100, 0, []⟩, ⟨0, 95/100, 0, []⟩,
         ⟨0, 1, 0, []⟩]).2.2.2 = true := by
  refine ⟨?_, ?_, ?_, ?_, ?_, ?_, ?_, ?_⟩
  · norm_num [mkTrainer, Net_init, SNNTrainer_init, reset_spikes, Except.bind,
      sampleTrainer, sampleNet]
  · norm_num [runTracker, record, lossImproves, initTracker]
  · norm_num [runTracker, record, lossImproves, initTracker]
  · norm_num [runTracker, record, lossImproves, initTracker]
  · norm_num [runTracker, record, lossImproves, initTracker, should_stop]
  · norm_num [runTracker, record, lossImproves, initTracker, should_stop]
  · norm_num [trainEpoch, record, lossImproves, initTracker, should_stop,
      sampleTrainer, sampleNet, forward, optimizer_step]
  · norm_num [trainEpoch, record, lossImproves, initTracker, should_stop,
      sampleTrainer, sampleNet, forward, optimizer_step]

/-- Membership in `dropLast` of a cons: the head, provided a tail exists, or
membership in the tail's `dropLast`. -/
lemma mem_dropLast_cons {α : Type} (a e : α) (l : List α)
    (he : e ∈ (a :: l).dropLast) : e = a ∨ e ∈ l.dropLast := by
  cases l with
  | nil => simp at he
  | cons b t =>
    rw [List.dropLast_cons₂] at he
    rcases List.mem_cons.mp he with rfl | h
    · exact Or.inl rfl
    · exact Or.inr h

/-- Membership in `dropLast` of an append. -/
lemma mem_dropLast_append {α : Type} (A B : List α) (e : α)
    (he : e ∈ (A ++ B).dropLast) : e ∈ A ∨ e ∈ B.dropLast := by
  rcases eq_or_ne B [] with rfl | hBne
  · rw [List.append_nil] at he
    exact Or.inl ((List.dropLast_sublist A).subset he)
  · rw [List.dropLast_append_of_ne_nil _ hBne] at he
    exact List.mem_append.mp he

/-- Per-epoch batch loop: if the early return was not taken, the stop test
is false on every entry of its trace; in every case it is false on every
entry except possibly the last. -/
lemma trainEpoch_trace_no_stop (p : ℤ) (epoch : ℕ) :
    ∀ (bs : List Batch) (i : ℕ) (tr : TrackerState) (st : SNNTrainerState),
      ((trainEpoch p epoch i tr st bs).2.2.2 = false →
        ∀ e ∈ (trainEpoch p epoch i tr st bs).2.2.1, entryStops p e = false)
      ∧ ∀ e ∈ (trainEpoch p epoch i tr st bs).2.2.1.dropLast,
          entryStops p e = false := by
  intro bs
  induction bs with
  | nil =>
    intro i tr st
    exact ⟨fun _ e he => absurd he (List.not_mem_nil e),
      fun e he => absurd he (List.not_mem_nil e)⟩
  | cons b rest ih =>
    intro i tr st
    simp only [trainEpoch]
    cases hstop : should_stop p epoch
        (record st.sig_improvement tr b.loss).loss_counter with
    | true =>
      rw [if_pos rfl]
      exact ⟨fun h => absurd h (by simp), fun e he => absurd he (by simp)⟩
    | false =>
      rw [if_neg (by simp)]
      constructor
      · intro hrec e he
        dsimp only at hrec he
        rcases List.mem_cons.mp he with rfl | he'
        · exact hstop
        · exact (ih _ _ _).1 hrec e he'
      · intro e he
        dsimp only at he
        rcases mem_dropLast_cons _ _ _ he with rfl | he'
        · exact hstop
        · exact (ih _ _ _).2 e he'

/-- Whole training loop: the stop test is false on every trace entry except
possibly the last. -/
lemma trainLoop_trace_no_stop (p : ℤ) :
    ∀ (data : List (List Batch)) (epoch : ℕ) (tr : TrackerState)
      (st : SNNTrainerState),
      ∀ e ∈ (trainLoop p epoch tr st data).2.2.dropLast,
        entryStops p e = false := by
  intro data
  induction data with
  | nil => intro epoch tr st e he; exact absurd he (List.not_mem_nil e)
  | cons eb rest ih =>
    intro epoch tr st
    simp only [trainLoop]
    cases hstop : (trainEpoch p epoch 0 tr st eb).2.2.2 with
    | true =>
      rw [if_pos rfl]
      exact fun e he => (trainEpoch_trace_no_stop p epoch eb 0 tr st).2 e he
    | false =>
      rw [if_neg (by simp)]
      intro e he
      dsimp only at he
      rcases mem_dropLast_append _ _ _ he with h1 | h2
      · exact (trainEpoch_trace_no_stop p epoch eb 0 tr st).1 hstop e h1
      · exact ih _ _ _ e h2

/-- C9: in any run, the early-stop test evaluates to false after every
processed batch except the last one — the moment it becomes true the loop
returns, processing no further batch of the current epoch or of any later
epoch; the terminal states are final by construction (`train` returns). -/
theorem train_stops_immediately (st : SNNTrainerState)
    (data : List (List Batch)) :
    ∀ e ∈ (train st data).2.dropLast, entryStops st.patience e = false := by
  intro e he
  exact trainLoop_trace_no_stop st.patience data 0 initTracker st e he

/-- Witness for C9: a one-epoch run of two constant-loss batches whose first
trace entry (the only non-last one) has a false stop test. -/
theorem train_stops_immediately_witness :
    entryStops 1
      { epoch := 0, tracker := { best_loss := some 1, loss_counter := 0 } }
      = false :=
  train_stops_immediately sampleTrainer [[⟨0, 1, 0, []⟩, ⟨0, 1, 0, []⟩]]
    { epoch := 0, tracker := { best_loss := some 1, loss_counter := 0 } }
    (by norm_num [train, trainLoop, trainEpoch, record, lossImproves,
      initTracker, sampleTrainer, sampleNet, should_stop, forward,
      optimizer_step])
